import Mathlib

/-
Verification of the header-parsing and field-selection core of CPU.py
(the CLASS Plotting Utility).  Python strings are modelled as `List Char`
and fallible code returns `Except PyErr`.  Every definition below is a
direct translation of the corresponding code in src/CPU.py; the module
docstring conventions of that file are quoted where relevant.
-/

namespace CPU

/-- Characters of a Lean string literal, used to write Python string literals. -/
def strL (s : String) : List Char := s.data

/-- Python whitespace (the ASCII characters stripped by str.strip()):
space, tab, newline, carriage return, vertical tab, form feed. -/
def isPySpace (c : Char) : Bool :=
  c == ' ' || c == '\t' || c == '\n' || c == '\r' ||
  c == Char.ofNat 11 || c == Char.ofNat 12

/-- Python str.strip(): remove leading and trailing whitespace. -/
def pyStrip (s : List Char) : List Char :=
  ((s.dropWhile isPySpace).reverse.dropWhile isPySpace).reverse

/-- Python slice s[a:b] with int bounds: a negative bound counts from the
end of the string, and both bounds are clamped to [0, len(s)]. -/
def pySlice (s : List Char) (a b : Int) : List Char :=
  let n : Int := s.length
  let lo : Nat := (if a < 0 then max (n + a) 0 else min a n).toNat
  let hi : Nat := (if b < 0 then max (n + b) 0 else min b n).toNat
  (s.take hi).drop lo

/-- Python s.rfind(sub) != -1, i.e. sub occurs somewhere in s. -/
def containsSub (s sub : List Char) : Bool :=
  (List.range (s.length + 1)).any (fun i => sub.isPrefixOf (s.drop i))

/-- Helper for `pythonLines`: re-attach the newline characters removed by
splitting on newline, and drop the empty trailing chunk (a Python text file
iterator never yields an empty line). -/
def reattachNewlines : List (List Char) → List (List Char)
  | [] => []
  | [last] => if last.isEmpty then [] else [last]
  | p :: rest => (p ++ [ '\n' ]) :: reattachNewlines rest

/-- The lines yielded by iterating a Python text file whose contents are s:
each line keeps its trailing newline; a final chunk without a newline is
still a line; no empty line is ever yielded for a terminating newline. -/
def pythonLines (s : List Char) : List (List Char) :=
  reattachNewlines (s.splitOn '\n')

/-- The exceptions that src/CPU.py can terminate with: the four exception
classes it declares (lines 182-199) carrying the message they are raised
with, plus the two built-in Python exceptions its list operations can
raise (IndexError from indexing an empty list, ValueError from list.index). -/
inductive PyErr where
  | indexError
  | valueError
  | formatError (msg : List Char)
  | typeError (msg : List Char)
  | numberOfFilesError (msg : List Char)
  | inputError (msg : List Char)
  deriving DecidableEq

/-- The single-quote character, written via its code point. -/
def sq : Char := Char.ofNat 39

/-- Python repr of a string: single-quoted, or double-quoted when the string
contains a single quote but no double quote.  (Backslash escaping inside the
repr is not reproduced; it affects no name that can reach this message.) -/
def pyReprStr (s : List Char) : List Char :=
  if s.contains sq && !(s.contains '"') then '"' :: (s ++ [ '"' ])
  else sq :: (s ++ [sq])

/-- Python str() of a list of strings: bracketed, comma-separated reprs,
as interpolated by the percent-s format of the InputError message. -/
def pyStrList (names : List (List Char)) : List Char :=
  [ '[' ] ++ List.intercalate (strL ", ") (names.map pyReprStr) ++ [ ']' ]

/-- The message of the InputError raised in plot_CLASS_output (lines 137-140):
the two percent-s format strings interpolate the offending selection entry
and the list of names found in the first file. -/
def fieldErrMsg (elem : List Char) (names : List (List Char)) : List Char :=
  (strL "The entry " ++ [sq] ++ strL "selection" ++ [sq] ++
    strL " must contain names of the fields in the specified files. You asked for ") ++
  elem ++
  (strL " where I only found " ++ pyStrList names ++ [ '.' ])

/-- replace_scale (lines 202-213): pop the character at index 1 (the dot of
the leading scale marker) and splice the characters of the expanded macro in
at position 1.  Python would raise an IndexError on a string of length < 2,
which cannot happen: the only caller guards with startswith of a
three-character marker. -/
def replace_scale (string : List Char) : List Char :=
  match string with
  | c0 :: _ :: rest => c0 :: (strL "8\\pi G/3" ++ rest)
  | s => s

/-- First pass of process_long_names (lines 230-240): strip a leading
scale marker from the short name and expand it in the tex name, building
both lists in input order. -/
def pass1 : List (List Char) → List (List Char) × List (List Char)
  | [] => ([], [])
  | name :: rest =>
    let (ns, ts) := pass1 rest
    if name.take 3 = strL "(.)" then
      (name.drop 3 :: ns, replace_scale name :: ts)
    else
      (name :: ns, name :: ts)

/-- Second pass of process_long_names (lines 244-248): truncate a short
name at its first opening parenthesis, else at its first opening bracket. -/
def stripAnnots (name : List Char) : List Char :=
  match name.findIdx? (fun c => c == '(') with
  | some i => name.take i
  | none =>
    match name.findIdx? (fun c => c == '[') with
    | some i => name.take i
    | none => name

/-- process_long_names (lines 216-250): given the long names extracted from
the header, return the list of short names and the list of tex names. -/
def process_long_names (long_names : List (List Char)) : List (List Char) × List (List Char) :=
  let (names, tex_names) := pass1 long_names
  (names.map stripAnnots, tex_names)

/-- The short name process_long_names derives from one long name. -/
def shortNameOf (name : List Char) : List Char :=
  stripAnnots (if name.take 3 = strL "(.)" then name.drop 3 else name)

/-- The tex (display) name process_long_names derives from one long name. -/
def texNameOf (name : List Char) : List Char :=
  if name.take 3 = strL "(.)" then replace_scale name else name

/-- The character offsets at which the marker character occurs in the header
line: the positions i with header[i] a colon (the condition of the
comprehension at lines 260-261). -/
def markerPositions (header : List Char) : List Nat :=
  (List.range header.length).filter (fun i => header[i]? == some ':')

/-- indices (lines 260-261): the comprehension records i+1 for every offset
i at which the header starts with the marker character. -/
def markerIndices (header : List Char) : List Nat :=
  (markerPositions header).map (fun i => i + 1)

/-- long_names (lines 263-265): for consecutive recorded indices a, b the
slice header[a:b-3] stripped; for the last recorded index the slice
header[a:] stripped. -/
def longNamesFrom (header : List Char) : List Nat → List (List Char)
  | [] => []
  | [a] => [pyStrip (header.drop a)]
  | a :: b :: rest =>
    pyStrip (pySlice header (a : Int) ((b : Int) - 3)) :: longNamesFrom header (b :: rest)

/-- The column-splitting step of extract_headers (lines 258-265): the number
of columns is the number of recorded marker indices, and the long names are
the slices between consecutive indices. -/
def splitColumns (header : List Char) : Nat × List (List Char) :=
  let indices := markerIndices header
  (indices.length, longNamesFrom header indices)

/-- extract_headers (lines 253-271), with the contents of the file given as
text: keep the lines whose first character is the comment marker, take the
last of them (Python raises IndexError when the list is empty), split it
into columns, and process the long names. -/
def extract_headers (text : List Char) :
    Except PyErr (Nat × List (List Char) × List (List Char)) :=
  match ((pythonLines text).filter (fun l => l.head? == some '#')).getLast? with
  | none => .error .indexError
  | some header =>
    let r := splitColumns header
    let p := process_long_names r.2
    .ok (r.1, p.1, p.2)

/-- The selection argument of plot_CLASS_output: a list of field names, or a
single string (its docstring: list, or string). -/
inductive Sel where
  | pstr (s : List Char)
  | plist (l : List (List Char))
  deriving DecidableEq

/-- The cast at lines 132-134: a selection that is a string becomes the
one-element list containing it. -/
def castSel : Sel → List (List Char)
  | .pstr s => [s]
  | .plist l => l

/-- The selection-handling block of plot_CLASS_output (lines 128-140), with
num_columns and names as produced by extract_headers on the first file.
With exactly two columns the selection is replaced by the one-element list
holding the second name (Python would raise IndexError if names had fewer
than two entries); with more than two columns a string selection is cast to
a list and each entry is checked for membership in names, the first absent
entry raising InputError; otherwise the selection is left untouched. -/
def resolveSelection (num_columns : Nat) (names : List (List Char)) (selection : Sel) :
    Except PyErr Sel :=
  if num_columns = 2 then
    match names[1]? with
    | some n => .ok (.plist [n])
    | none => .error .indexError
  else if 2 < num_columns then
    let sel := castSel selection
    match sel.find? (fun elem => !(names.contains elem)) with
    | some elem => .error (.inputError (fieldErrMsg elem names))
    | none => .ok (.plist sel)
  else .ok selection

/-- Python curve_names.index(selec) (line 156): the index of the first
occurrence, ValueError when absent. -/
def listIndex (l : List (List Char)) (x : List Char) : Except PyErr Nat :=
  match l.findIdx? (fun y => y == x) with
  | some i => .ok i
  | none => .error .valueError

/-- The parsed command line of main: the positional files, the ratio flag,
the optional selection list (nargs +) and the optional scale choice. -/
structure Args where
  files : List (List Char)
  ratio : Bool
  selection : Option (List (List Char))
  scale : Option (List Char)

/-- What an invocation of main does: print usage and return, terminate with
a raised exception, or reach the call to plot_CLASS_output (which performs
the rendering) with the given arguments. -/
inductive MainOutcome where
  | usage
  | raised (e : PyErr)
  | plot (files : List (List Char)) (selection : Sel) (ratio : Bool) (scale : List Char)
  deriving DecidableEq

/-- main (lines 274-321): print usage when no files are given; raise
InputError when the ratio flag is set (lines 286-288, the not-implemented
catch); infer the selection and scale from the first file name when no
selection is given, raising TypeError when neither convention matches;
default the scale; then the late ratio file-count check (lines 312-316,
unreachable after the earlier raise) and the call to plot_CLASS_output. -/
def main (args : Args) : MainOutcome :=
  if args.files.length = 0 then .usage
  else if args.ratio then
    .raised (.inputError (strL "Sorry, this is not working yet"))
  else
    match
      (match args.selection with
       | none =>
         if containsSub args.files.headI (strL "cl") then
           Except.ok (Sel.pstr (strL "TT"), strL "loglog")
         else if containsSub args.files.headI (strL "pk") then
           Except.ok (Sel.pstr (strL "P"), strL "loglog")
         else
           Except.error (PyErr.typeError (strL "Please specify a field to plot"))
       | some sel => Except.ok (Sel.plist sel, ([] : List Char)))
    with
    | .error e => .raised e
    | .ok (selection, scale) =>
      let finalScale :=
        match args.scale with
        | some sc => sc
        | none => if scale.isEmpty then strL "lin" else scale
      if args.ratio && args.files.length < 2 then
        .raised (.numberOfFilesError (strL
          "If you want me to compute a ratio between two files, I strongly encourage you to give me at least two of them."))
      else .plot args.files selection args.ratio finalScale

/-- Whether an outcome of main is the call to plot_CLASS_output. -/
def isPlot : MainOutcome → Bool
  | .plot _ _ _ _ => true
  | _ => false

/-- Whether an outcome of main is a raised NumberOfFilesError. -/
def raisesNumberOfFilesError : MainOutcome → Bool
  | .raised (.numberOfFilesError _) => true
  | _ => false

/-- Whether a result of extract_headers is a raised FormatError. -/
def raisesFormatError (r : Except PyErr (Nat × List (List Char) × List (List Char))) : Bool :=
  match r with
  | .error (.formatError _) => true
  | _ => false

/- Helper lemmas -/

lemma take_clamp (s : List Char) (b : Nat) : s.take (min b s.length) = s.take b := by
  rcases Nat.le_total b s.length with h | h
  · rw [Nat.min_eq_left h]
  · rw [Nat.min_eq_right h, List.take_length, List.take_of_length_le h]

lemma drop_clamp_ge (t : List Char) (a n : Nat) (h : t.length ≤ n) :
    t.drop (min a n) = t.drop a := by
  rcases Nat.le_total a n with h2 | h2
  · rw [Nat.min_eq_left h2]
  · rw [Nat.min_eq_right h2]
    exact (List.drop_eq_nil_of_le h).trans (List.drop_eq_nil_of_le (h.trans h2)).symm

lemma pySlice_natCast (s : List Char) (a b : Nat) :
    pySlice s (a : Int) (b : Int) = (s.take b).drop a := by
  have ha : ¬((a : Int) < 0) := Int.not_lt.mpr (Int.natCast_nonneg a)
  have hb : ¬((b : Int) < 0) := Int.not_lt.mpr (Int.natCast_nonneg b)
  simp only [pySlice]
  rw [if_neg ha, if_neg hb]
  have h1 : (min (a : Int) (s.length : Int)).toNat = min a s.length := by omega
  have h2 : (min (b : Int) (s.length : Int)).toNat = min b s.length := by omega
  rw [h1, h2, take_clamp]
  exact drop_clamp_ge _ _ _ (by simp)

lemma pass1_eq (lns : List (List Char)) :
    pass1 lns = (lns.map (fun n => if n.take 3 = strL "(.)" then n.drop 3 else n),
      lns.map texNameOf) := by
  induction lns with
  | nil => rfl
  | cons n rest ih =>
    by_cases hc : n.take 3 = strL "(.)" <;> simp [pass1, ih, texNameOf, hc]

lemma process_long_names_eq (lns : List (List Char)) :
    process_long_names lns = (lns.map shortNameOf, lns.map texNameOf) := by
  simp [process_long_names, pass1_eq, List.map_map, shortNameOf, Function.comp]

lemma longNamesFrom_length (header : List Char) (is : List Nat) :
    (longNamesFrom header is).length = is.length := by
  induction is with
  | nil => rfl
  | cons a tail ih =>
    cases tail with
    | nil => rfl
    | cons b rest => simpa [longNamesFrom] using ih

lemma longNamesFrom_getElem?_mid (header : List Char) (is : List Nat) (i a b : Nat)
    (h1 : is[i]? = some a) (h2 : is[i + 1]? = some b) :
    (longNamesFrom header is)[i]? =
      some (pyStrip (pySlice header (a : Int) ((b : Int) - 3))) := by
  induction is generalizing i with
  | nil => simp at h1
  | cons a0 tail ih =>
    cases tail with
    | nil =>
      cases i with
      | zero => simp at h2
      | succ j => simp at h1
    | cons b0 rest =>
      cases i with
      | zero =>
        have ha : a0 = a := by simpa using h1
        have hb : b0 = b := by simpa using h2
        subst ha hb
        simp [longNamesFrom]
      | succ j =>
        have h1a : (b0 :: rest)[j]? = some a := by simpa using h1
        have h2a : (b0 :: rest)[j + 1]? = some b := by simpa using h2
        simpa [longNamesFrom] using ih j h1a h2a

lemma longNamesFrom_getElem?_last (header : List Char) (is : List Nat) (i a : Nat)
    (h1 : is[i]? = some a) (h2 : is[i + 1]? = none) :
    (longNamesFrom header is)[i]? = some (pyStrip (header.drop a)) := by
  induction is generalizing i with
  | nil => simp at h1
  | cons a0 tail ih =>
    cases tail with
    | nil =>
      cases i with
      | zero =>
        have : a0 = a := by simpa using h1
        subst this
        rfl
      | succ j => simp at h1
    | cons b0 rest =>
      cases i with
      | zero => simp at h2
      | succ j =>
        have h1a : (b0 :: rest)[j]? = some a := by simpa using h1
        have h2a : (b0 :: rest)[j + 1]? = none := by simpa using h2
        simpa [longNamesFrom] using ih j h1a h2a

lemma extract_headers_ok {text : List Char} {nc : Nat} {names texs : List (List Char)}
    (h : extract_headers text = .ok (nc, names, texs)) :
    names.length = nc ∧ texs.length = nc := by
  unfold extract_headers at h
  split at h
  · exact absurd h (by simp)
  · simp only [Except.ok.injEq, Prod.mk.injEq] at h
    obtain ⟨hnc, hn, ht⟩ := h
    subst hnc hn ht
    simp [splitColumns, process_long_names_eq, longNamesFrom_length]

lemma contains_eq_true_iff_mem (names : List (List Char)) (x : List Char) :
    names.contains x = true ↔ x ∈ names := by
  simp [List.contains]

lemma mem_of_getElem?_some {l : List Nat} {i a : Nat} (h : l[i]? = some a) : a ∈ l := by
  obtain ⟨hl, e⟩ := List.getElem?_eq_some.mp h
  exact e ▸ List.getElem_mem hl

lemma mem_markerPositions_colon {header : List Char} {i : Nat}
    (h : i ∈ markerPositions header) : header[i]? = some ':' := by
  simp only [markerPositions, List.mem_filter, beq_iff_eq] at h
  exact h.2

lemma markerPositions_ge_one {header : List Char} (hh : header.head? = some '#')
    {i : Nat} (h : i ∈ markerPositions header) : 1 ≤ i := by
  rcases Nat.eq_zero_or_pos i with h0 | h0
  · subst h0
    have hc := mem_markerPositions_colon h
    cases header with
    | nil => simp at hh
    | cons c t =>
      have hc2 : c = ':' := by simpa using hc
      have hh2 : c = '#' := by simpa using hh
      rw [hh2] at hc2
      exact absurd hc2 (by decide)
  · exact h0

lemma markerPositions_sorted (header : List Char) :
    (markerPositions header).Pairwise (· < ·) :=
  (List.pairwise_lt_range header.length).filter _

lemma markerPositions_lt {header : List Char} {i mi mi1 : Nat}
    (h1 : (markerPositions header)[i]? = some mi)
    (h2 : (markerPositions header)[i + 1]? = some mi1) : mi < mi1 := by
  obtain ⟨hlt1, e1⟩ := List.getElem?_eq_some.mp h1
  obtain ⟨hlt2, e2⟩ := List.getElem?_eq_some.mp h2
  have hp := List.pairwise_iff_get.mp (markerPositions_sorted header)
    ⟨i, hlt1⟩ ⟨i + 1, hlt2⟩ (by simp [Fin.lt_def])
  simpa [List.get_eq_getElem, e1, e2] using hp

/- Claim theorems -/

/-- C9: process_long_names returns two ordered sequences, each of length
equal to the input, index-aligned, where the entry at index i of each output
is a function of the input long name at index i alone. -/
theorem process_long_names_aligned (long_names : List (List Char)) (i : Nat) :
    (process_long_names long_names).1.length = long_names.length ∧
    (process_long_names long_names).2.length = long_names.length ∧
    (process_long_names long_names).1[i]? = (long_names[i]?).map shortNameOf ∧
    (process_long_names long_names).2[i]? = (long_names[i]?).map texNameOf := by
  simp [process_long_names_eq]

/-- C8: the long name (.)rho_crit normalizes to the short name rho_crit
(the three-character marker stripped) and to the display name with the
marker literally replaced by the expanded macro. -/
theorem scale_macro_expansion :
    process_long_names [strL "(.)rho_crit"] =
      ([strL "rho_crit"], [strL "(8\\pi G/3)rho_crit"]) := rfl

/-- C5: evaluation of process_long_names at the failing input of the
claim: the code yields the short name with the trailing space RETAINED
(no trimming happens after truncation at the bracket), contradicting the
claim and the docstring of process_long_names itself, while the display
name is unchanged as claimed. -/
theorem proper_time_eval :
    process_long_names [strL "proper time [Gyr]"] =
      ([strL "proper time "], [strL "proper time [Gyr]"]) ∧
    [strL "proper time "] ≠ [strL "proper time"] :=
  ⟨rfl, by decide⟩

/-- C4: evaluation at the claimed end-to-end example: decoding the
3-column file yields short names x, rho and a third name keeping a
trailing space (so NOT the claimed P), tex names as in the header, and
selection rho resolves (no InputError) with column index 1 as claimed. -/
theorem three_column_example_eval :
    extract_headers (strL "#1:x  2:(.)rho  3:P [Mpc^-3]\n1 2 3\n") =
      .ok (3, [strL "x", strL "rho", strL "P "],
        [strL "x", strL "(8\\pi G/3)rho", strL "P [Mpc^-3]"]) ∧
    resolveSelection 3 [strL "x", strL "rho", strL "P "] (.plist [strL "rho"]) =
      .ok (.plist [strL "rho"]) ∧
    listIndex [strL "x", strL "rho", strL "P "] (strL "rho") = .ok 1 ∧
    [strL "x", strL "rho", strL "P "] ≠ [strL "x", strL "rho", strL "P"] :=
  ⟨rfl, rfl, rfl, by decide⟩

/-- C1 (amended): in ratio mode, an invocation with no files prints usage
and returns; an invocation with at least one file raises InputError (the
not-implemented catch fires before the NumberOfFilesError file-count
check, which is unreachable); the call to plot_CLASS_output (rendering)
is never reached. -/
theorem ratio_mode_behaviour (args : Args) (h : args.ratio = true) :
    main args = (if args.files = [] then MainOutcome.usage
      else .raised (.inputError (strL "Sorry, this is not working yet"))) ∧
    isPlot (main args) = false := by
  by_cases hf : args.files = []
  · rw [if_pos hf]
    constructor <;> simp [main, hf, isPlot]
  · have hlen : ¬ args.files.length = 0 := by simpa [List.length_eq_zero] using hf
    rw [if_neg hf]
    constructor <;> simp [main, hlen, h, isPlot]

/-- C1 witness: the statement of ratio_mode_behaviour at one file. -/
theorem ratio_mode_behaviour_witness :
    main ⟨[strL "a.dat"], true, none, none⟩ =
      .raised (.inputError (strL "Sorry, this is not working yet")) ∧
    isPlot (main ⟨[strL "a.dat"], true, none, none⟩) = false := by
  have h := ratio_mode_behaviour ⟨[strL "a.dat"], true, none, none⟩ rfl
  exact ⟨h.1.trans (by decide), h.2⟩

/-- C1 counterexample: in ratio mode with one file (fewer than two), the
program does not raise NumberOfFilesError as the claim states; it raises
InputError from the not-implemented catch. -/
theorem ratio_one_file_counterexample :
    raisesNumberOfFilesError (main ⟨[strL "a.dat"], true, none, none⟩) = false ∧
    main ⟨[strL "a.dat"], true, none, none⟩ =
      .raised (.inputError (strL "Sorry, this is not working yet")) :=
  ⟨rfl, rfl⟩

/-- C2 (amended): on a file with no line whose first character is the
comment marker, extract_headers fails with the built-in IndexError from
taking the last element of an empty list, not with FormatError (which is
declared in the source but never raised). -/
theorem no_header_raises_index_error (text : List Char)
    (h : ∀ l ∈ pythonLines text, ¬ l.head? = some '#') :
    extract_headers text = .error .indexError := by
  have hf : (pythonLines text).filter (fun l => l.head? == some '#') = [] := by
    apply List.filter_eq_nil_iff.mpr
    intro a ha
    simpa using h a ha
  unfold extract_headers
  rw [hf]
  rfl

/-- C2 witness: the statement of no_header_raises_index_error at a
two-line numeric file without a header. -/
theorem no_header_raises_index_error_witness :
    extract_headers (strL "1 2\n3 4\n") = .error .indexError :=
  no_header_raises_index_error (strL "1 2\n3 4\n") (by decide)

/-- C2 counterexample: a file with no comment line makes extract_headers
fail with IndexError, and that failure is not a FormatError. -/
theorem no_header_counterexample :
    extract_headers (strL "1 2\n3 4\n") = .error .indexError ∧
    raisesFormatError (extract_headers (strL "1 2\n3 4\n")) = false :=
  ⟨rfl, rfl⟩

/-- C10: when the first file decodes to fewer than two columns, the
selection-handling block of plot_CLASS_output falls through both branches:
the caller-supplied selection is returned untouched (not forced, not
validated, a string not cast to a list) and no error is raised. -/
theorem few_columns_no_selection_handling (num_columns : Nat)
    (names : List (List Char)) (sel : Sel) (h : num_columns < 2) :
    resolveSelection num_columns names sel = .ok sel := by
  unfold resolveSelection
  rw [if_neg (by omega), if_neg (by omega)]

/-- C10 witness: one column, a string selection, returned untouched. -/
theorem few_columns_no_selection_handling_witness :
    resolveSelection 1 [strL "x"] (.pstr (strL "TT")) = .ok (.pstr (strL "TT")) :=
  few_columns_no_selection_handling 1 [strL "x"] (.pstr (strL "TT")) (by decide)

/-- C3: for a header line (first character the comment marker) whose
marker character occurs at the positions listed by markerPositions, the
split yields exactly one column per marker occurrence, in order, and the
long name of column i with a successor marker is the characters from
position marker i plus 1 through position marker (i+1) minus 3 inclusive
(take (marker (i+1) minus 2) of the line, then drop (marker i plus 1)),
stripped; the final long name is the characters after its marker to the
end of the line, stripped. -/
theorem header_split_marker_spans (header : List Char) (hh : header.head? = some '#') :
    (splitColumns header).1 = (markerPositions header).length ∧
    (splitColumns header).2.length = (markerPositions header).length ∧
    (∀ i mi mi1, (markerPositions header)[i]? = some mi →
      (markerPositions header)[i + 1]? = some mi1 →
      (splitColumns header).2[i]? =
        some (pyStrip ((header.take (mi1 - 2)).drop (mi + 1)))) ∧
    (∀ i mi, (markerPositions header)[i]? = some mi →
      (markerPositions header)[i + 1]? = none →
      (splitColumns header).2[i]? = some (pyStrip (header.drop (mi + 1)))) := by
  refine ⟨?_, ?_, ?_, ?_⟩
  · simp [splitColumns, markerIndices]
  · simp [splitColumns, markerIndices, longNamesFrom_length]
  · intro i mi mi1 h1 h2
    have hlt := markerPositions_lt h1 h2
    have hmi : 1 ≤ mi := markerPositions_ge_one hh (mem_of_getElem?_some h1)
    have hmi1 : 2 ≤ mi1 := by omega
    have e1 : (markerIndices header)[i]? = some (mi + 1) := by
      simp [markerIndices, h1]
    have e2 : (markerIndices header)[i + 1]? = some (mi1 + 1) := by
      simp [markerIndices, h2]
    have hmain := longNamesFrom_getElem?_mid header (markerIndices header) i
      (mi + 1) (mi1 + 1) e1 e2
    have hcast : ((mi1 + 1 : Nat) : Int) - 3 = ((mi1 - 2 : Nat) : Int) := by omega
    rw [hcast, pySlice_natCast] at hmain
    simpa [splitColumns] using hmain
  · intro i mi h1 h2
    have e1 : (markerIndices header)[i]? = some (mi + 1) := by
      simp [markerIndices, h1]
    have e2 : (markerIndices header)[i + 1]? = none := by
      simp [markerIndices, h2]
    have hmain := longNamesFrom_getElem?_last header (markerIndices header) i (mi + 1) e1 e2
    simpa [splitColumns] using hmain

/-- C3 witness: the statement at the three-column example header, whose
markers sit at positions 2, 7 and 17. -/
theorem header_split_marker_spans_witness :
    (splitColumns (strL "#1:x  2:(.)rho  3:P [Mpc^-3]")).1 = 3 ∧
    (splitColumns (strL "#1:x  2:(.)rho  3:P [Mpc^-3]")).2[1]? =
      some (pyStrip (((strL "#1:x  2:(.)rho  3:P [Mpc^-3]").take 15).drop 8)) ∧
    (splitColumns (strL "#1:x  2:(.)rho  3:P [Mpc^-3]")).2[2]? =
      some (pyStrip ((strL "#1:x  2:(.)rho  3:P [Mpc^-3]").drop 18)) := by
  have h := header_split_marker_spans (strL "#1:x  2:(.)rho  3:P [Mpc^-3]") (by decide)
  exact ⟨h.1.trans (by decide),
    h.2.2.1 1 7 17 (by decide) (by decide),
    h.2.2.2 2 17 (by decide) (by decide)⟩

/-- C6: when the first file decodes to exactly two columns, the selection
is forced to the one-element list holding the short name of the second
column, whatever selection the caller supplied, and no error is raised. -/
theorem two_column_forces_selection (text : List Char) (num_columns : Nat)
    (names texs : List (List Char))
    (hex : extract_headers text = .ok (num_columns, names, texs))
    (h2 : num_columns = 2) :
    ∃ n1, names[1]? = some n1 ∧
      ∀ sel : Sel, resolveSelection num_columns names sel = .ok (.plist [n1]) := by
  subst h2
  have hlen : names.length = 2 := (extract_headers_ok hex).1
  have h1 : 1 < names.length := by omega
  refine ⟨names.get ⟨1, h1⟩, ?_, ?_⟩
  · simp [List.getElem?_eq_getElem h1]
  · intro sel
    have hsome : names[1]? = some (names.get ⟨1, h1⟩) := by
      simp [List.getElem?_eq_getElem h1]
    unfold resolveSelection
    rw [if_pos rfl, hsome]

/-- C6 witness: a two-column file forces the selection to its second short
name even though the caller asked for something else. -/
theorem two_column_forces_selection_witness :
    resolveSelection 2 [strL "x", strL "y"] (.pstr (strL "TT")) =
      .ok (.plist [strL "y"]) := by
  obtain ⟨n1, h1, hall⟩ := two_column_forces_selection (strL "#1:x 2:y\n0 1\n") 2
    [strL "x", strL "y"] [strL "x", strL "y"] rfl rfl
  have hy : some (strL "y") = some n1 := h1
  cases hy
  exact hall (.pstr (strL "TT"))

/-- C7: when the first file decodes to more than two columns, a selection
(a string being cast to a one-element list) whose entries are all among
the short names passes validation unchanged, and a selection containing
an absent entry raises InputError whose message contains an offending
(absent) entry, namely the first such entry in selection order. -/
theorem selection_validation (text : List Char) (num_columns : Nat)
    (names texs : List (List Char))
    (hex : extract_headers text = .ok (num_columns, names, texs))
    (h2 : 2 < num_columns) (sel : Sel) :
    ((∀ e ∈ castSel sel, e ∈ names) →
      resolveSelection num_columns names sel = .ok (.plist (castSel sel))) ∧
    ((∃ e ∈ castSel sel, e ∉ names) →
      ∃ e0, e0 ∈ castSel sel ∧ e0 ∉ names ∧
        resolveSelection num_columns names sel =
          .error (.inputError (fieldErrMsg e0 names)) ∧
        e0 <:+: fieldErrMsg e0 names) := by
  have hne : ¬ num_columns = 2 := by omega
  constructor
  · intro hall
    have hfind : (castSel sel).find? (fun elem => !(names.contains elem)) = none := by
      apply List.find?_eq_none.mpr
      intro x hx
      simpa using hall x hx
    unfold resolveSelection
    rw [if_neg hne, if_pos h2]
    simp only [hfind]
  · rintro ⟨e, he, hme⟩
    rcases hfind : (castSel sel).find? (fun elem => !(names.contains elem)) with _ | e0
    · exfalso
      have hnone := List.find?_eq_none.mp hfind e he
      cases hb : names.contains e with
      | true => exact hme ((contains_eq_true_iff_mem names e).mp hb)
      | false => exact hnone (by rw [hb]; rfl)
    · have hp := List.find?_some hfind
      have hm := List.mem_of_find?_eq_some hfind
      have hnm : e0 ∉ names := by
        intro hmem
        have hc : names.contains e0 = true := (contains_eq_true_iff_mem names e0).mpr hmem
        rw [hc] at hp
        simp at hp
      refine ⟨e0, hm, hnm, ?_, ?_⟩
      · unfold resolveSelection
        rw [if_neg hne, if_pos h2]
        simp only [hfind]
      · exact ⟨strL "The entry " ++ [sq] ++ strL "selection" ++ [sq] ++
          strL " must contain names of the fields in the specified files. You asked for ",
          strL " where I only found " ++ pyStrList names ++ [ '.' ], rfl⟩

/-- C7 witness: on a three-column file, the selection b passes validation
and the selection zz raises InputError whose message interpolates zz. -/
theorem selection_validation_witness :
    resolveSelection 3 [strL "a", strL "b", strL "c"] (.plist [strL "b"]) =
      .ok (.plist [strL "b"]) ∧
    resolveSelection 3 [strL "a", strL "b", strL "c"] (.plist [strL "zz"]) =
      .error (.inputError (fieldErrMsg (strL "zz") [strL "a", strL "b", strL "c"])) := by
  have hok := (selection_validation (strL "#1:a 2:b 3:c\n1 2 3\n") 3
    [strL "a", strL "b", strL "c"] [strL "a", strL "b", strL "c"] rfl (by decide)
    (.plist [strL "b"])).1 (by decide)
  have hbad := (selection_validation (strL "#1:a 2:b 3:c\n1 2 3\n") 3
    [strL "a", strL "b", strL "c"] [strL "a", strL "b", strL "c"] rfl (by decide)
    (.plist [strL "zz"])).2 ⟨strL "zz", by decide, by decide⟩
  obtain ⟨e0, hm, _, heq, _⟩ := hbad
  have he0 : e0 = strL "zz" := List.mem_singleton.mp hm
  subst he0
  exact ⟨hok, heq⟩

end CPU
